import Mathlib

/-!
Verification of the discrete-event digital-logic simulator.

The development shallowly embeds the simulator's JavaScript sources:

* `components.js` — the component data model (`Node`, `BaseGate` and its
  subclasses, `Wire`) and each gate's `calculate()` function;
* the animation/simulation engine (`AnimationManager.processQueue`,
  `startSimulation`) — an explicit FIFO event queue with a
  `MAX_SIMULATION_STEPS` safety bound;
* the simulator model (`Simulator.addWire`, `buildSimulationQueue`,
  `getCircuitData`, `loadCircuitData`).

Signal states are JavaScript numbers `0`/`1`; they are embedded as `Nat`,
and every `=== 1` comparison in the source becomes `== 1` here.  Geometry
(`relX`/`relY`, widths, heights) and log/animation output are presentation
concerns that no modelled behavior reads back; they are omitted from the
embedding.
-/

/-- The component kinds of `components.js`: `InputToggle` (`'INPUT'`),
`OutputLed` (`'OUTPUT'`), and the seven gate classes, identified by their
`label` type string. -/
inductive GateKind
  | INPUT
  | OUTPUT
  | AND
  | OR
  | NOT
  | XOR
  | NAND
  | NOR
  | XNOR
deriving DecidableEq

/-- `AndGate.calculate`: `this.inputNodes.every(node => node.state === 1) ? 1 : 0`. -/
def andCalculate (states : List Nat) : Nat :=
  if states.all (fun s => s == 1) then 1 else 0

/-- `OrGate.calculate`: `this.inputNodes.some(node => node.state === 1) ? 1 : 0`. -/
def orCalculate (states : List Nat) : Nat :=
  if states.any (fun s => s == 1) then 1 else 0

/-- `NotGate.calculate`: `(in_state === 1) ? 0 : 1`. -/
def notCalculate (s : Nat) : Nat :=
  if s == 1 then 0 else 1

/-- `XorGate.calculate`: the number of high inputs
(`inputNodes.filter(node => node.state === 1).length`), output 1 iff odd. -/
def xorCalculate (states : List Nat) : Nat :=
  if (states.filter (fun s => s == 1)).length % 2 == 1 then 1 else 0

/-- `NandGate.calculate`: the AND result inverted. -/
def nandCalculate (states : List Nat) : Nat :=
  if states.all (fun s => s == 1) then 0 else 1

/-- `NorGate.calculate`: the OR result inverted. -/
def norCalculate (states : List Nat) : Nat :=
  if states.any (fun s => s == 1) then 0 else 1

/-- `XnorGate.calculate`: output 1 iff the number of high inputs is even. -/
def xnorCalculate (states : List Nat) : Nat :=
  if (states.filter (fun s => s == 1)).length % 2 == 0 then 1 else 0

/-!
## The simulation engine (`AnimationManager.processQueue`)

For the running engine the object graph is flattened: a component's
mutable fields are its `state` (used by `InputToggle` and `OutputLed`),
the states of its input nodes, and the state of its single output node
(`outputNodes[0]`; components without an output node simply never read
the field).  The static topology is the list of wires, each one recording
the index of the component owning its `startNode` (always that
component's output node) and the index/port of the input node it ends at.
-/

/-- Mutable per-component simulation state. -/
structure SimComp where
  kind : GateKind
  /-- `this.state` — the toggle state of an `InputToggle`, the lit state of
  an `OutputLed`; unused by pure gates. -/
  state : Nat
  /-- States of the component's input nodes, in declared order. -/
  inputs : List Nat
  /-- State of the component's single output node (`outputNodes[0]`). -/
  output : Nat
deriving DecidableEq

/-- Static description of a `Wire`: `startNode` is the output node of
component `src`; `endNode` is input node `dstPort` of component `dst`. -/
structure SimWire where
  src : Nat
  dst : Nat
  dstPort : Nat
deriving DecidableEq

/-- The three queue event types of `AnimationManager.processQueue`:
`'UPDATE_INPUT'`, `'PROPAGATE'` (carrying a wire and `newState`), and
`'CALCULATE'`.  Wires and components are referenced by index. -/
inductive SimEvent
  | updateInput (comp : Nat)
  | propagate (wire : Nat) (newState : Nat)
  | calculate (comp : Nat)
deriving DecidableEq

/-- The mutable engine state: component states, wire states (`wire.state`,
indexed like the wire list), and the FIFO `simulationQueue`. -/
structure SimState where
  comps : List SimComp
  wireStates : List Nat
  queue : List SimEvent
deriving DecidableEq

/-- Indices of the wires attached to component `i`'s output node
(`outputNode.connections`), in the order the wires were added — which is
their order in the master wire list. -/
def wiresFrom (wires : List SimWire) (i : Nat) : List Nat :=
  wires.enum.filterMap (fun p => if p.2.src = i then some p.1 else none)

/-- Dispatch of `gate.calculate()` by component kind, reading the
component's current node states.  `InputToggle.calculate` returns
`this.state`; `OutputLed.calculate` mirrors its single input. -/
def gateCalculate (k : GateKind) (c : SimComp) : Nat :=
  match k with
  | .INPUT => c.state
  | .OUTPUT => c.inputs.getD 0 0
  | .AND => andCalculate c.inputs
  | .OR => orCalculate c.inputs
  | .NOT => notCalculate (c.inputs.getD 0 0)
  | .XOR => xorCalculate c.inputs
  | .NAND => nandCalculate c.inputs
  | .NOR => norCalculate c.inputs
  | .XNOR => xnorCalculate c.inputs

/-- One event dispatch of `AnimationManager.processQueue` (step 3 of the
source, after the event has been shifted off the queue `s.queue`):

* `UPDATE_INPUT`: enqueue `PROPAGATE(wire, outputNode.state)` for every
  wire on the toggle's output node (the toggle's state was already set by
  `toggle()`, per the bug-fix comment in the source).
* `PROPAGATE`: if `wire.state === newState && wire.endNode.state ===
  newState`, break with no change; otherwise set both states and, unless
  the destination component is an `InputToggle`, enqueue `CALCULATE` for
  it.
* `CALCULATE`: for an `OutputLed` always accept the mirrored input into
  `gate.state`; for anything else compare the computed output with
  `outputNodes[0].state` and only on a change update the output node and
  enqueue `PROPAGATE` for each wire on it.  (`InputToggle.calculate`'s
  assignment `outputNodes[0].state = this.state` coincides with this
  update, so the unchanged branch leaves the state equal either way.) -/
def processEvent (wires : List SimWire) (s : SimState) (e : SimEvent) : SimState :=
  match e with
  | .updateInput i =>
    match s.comps.get? i with
    | none => s
    | some c =>
      { s with queue := s.queue ++ (wiresFrom wires i).map (fun j => .propagate j c.output) }
  | .propagate j ns =>
    match wires.get? j with
    | none => s
    | some w =>
      match s.comps.get? w.dst with
      | none => s
      | some dc =>
        if s.wireStates.getD j 0 = ns ∧ dc.inputs.getD w.dstPort 0 = ns then s
        else
          let s1 : SimState :=
            { s with wireStates := s.wireStates.set j ns,
                     comps := s.comps.set w.dst { dc with inputs := dc.inputs.set w.dstPort ns } }
          if dc.kind = .INPUT then s1
          else { s1 with queue := s1.queue ++ [.calculate w.dst] }
  | .calculate g =>
    match s.comps.get? g with
    | none => s
    | some c =>
      let newState := gateCalculate c.kind c
      if c.kind = .OUTPUT then
        { s with comps := s.comps.set g { c with state := newState } }
      else if c.output = newState then s
      else
        { s with comps := s.comps.set g { c with output := newState },
                 queue := s.queue ++ (wiresFrom wires g).map (fun j => .propagate j newState) }

/-- `AnimationManager.MAX_SIMULATION_STEPS` — the safety break. -/
def MAX_SIMULATION_STEPS : Nat := 1000

/-- How a drain run ended: the queue emptied (`"Simulation finished."`) or
the safety break fired (`"Simulation limit reached"`). -/
inductive SimStatus
  | finished
  | limitReached
deriving DecidableEq

/-- Result of draining the queue: the final state, the number of processed
events (the final `simulationStepCounter`), and the stop status. -/
structure DrainResult where
  final : SimState
  processed : Nat
  status : SimStatus
deriving DecidableEq

/-- The recursive heart of `processQueue`: stop when the queue is empty;
increment the step counter and stop at the safety break when it passes
`MAX_SIMULATION_STEPS`; otherwise shift and process the front event and
continue.  `fuel` is a structural-recursion bound; called with
`fuel + counter = MAX_SIMULATION_STEPS` the `fuel = 0` fallback is
unreachable, because the safety break fires first. -/
def processQueueAux (wires : List SimWire) (fuel : Nat) (s : SimState) (counter : Nat) :
    DrainResult :=
  match s.queue with
  | [] => ⟨s, counter, .finished⟩
  | e :: rest =>
    if counter + 1 > MAX_SIMULATION_STEPS then ⟨s, counter, .limitReached⟩
    else
      match fuel with
      | 0 => ⟨s, counter, .limitReached⟩
      | fuel' + 1 =>
        processQueueAux wires fuel' (processEvent wires { s with queue := rest } e) (counter + 1)

/-- A full drain: `processQueue` entered with `simulationStepCounter = 0`. -/
def processQueue (wires : List SimWire) (s : SimState) : DrainResult :=
  processQueueAux wires MAX_SIMULATION_STEPS s 0

/-- `Simulator.buildSimulationQueue`: one `UPDATE_INPUT` event per
`InputToggle` in the master component list, in list order. -/
def buildSimulationQueue (comps : List SimComp) : List SimEvent :=
  comps.enum.filterMap (fun p => if p.2.kind = .INPUT then some (SimEvent.updateInput p.1) else none)

/-- Outcome of `AnimationManager.startSimulation`: either the built queue
was empty (nothing connected to simulate) and the run never starts, or
the queue is drained. -/
inductive RunOutcome
  | nothingToSimulate
  | ran (r : DrainResult)
deriving DecidableEq

/-- `AnimationManager.startSimulation`: reset the step counter, rebuild
the queue from every `InputToggle`, return early if it is empty,
otherwise drain. -/
def startSimulation (wires : List SimWire) (s : SimState) : RunOutcome :=
  let q := buildSimulationQueue s.comps
  if q.isEmpty then .nothingToSimulate
  else .ran (processQueue wires { s with queue := q })

/-- `InputToggle.toggle`: flip `this.state` and mirror it onto the output
node. -/
def toggleComp (c : SimComp) : SimComp :=
  let ns := if c.state = 0 then 1 else 0
  { c with state := ns, output := ns }

/-- `Simulator.toggleInput`: toggle the component only if it is an
`InputToggle`. -/
def toggleInput (s : SimState) (i : Nat) : SimState :=
  match s.comps.get? i with
  | some c => if c.kind = .INPUT then { s with comps := s.comps.set i (toggleComp c) } else s
  | none => s

/-- One `processQueue` body iteration viewed as a state transformer: shift
the front event and process it (identity on an empty queue).  Used to
reason about runs that outlive the safety break. -/
def stepState (wires : List SimWire) (s : SimState) : SimState :=
  match s.queue with
  | [] => s
  | e :: rest => processEvent wires { s with queue := rest } e

/-!
### Concrete circuits for the scenario claims

`oscComps`/`oscWires`: a toggled `InputToggle` feeding input 0 of an
`XOR` gate whose output is wired both back to its own input 1 (an
unbroken combinational feedback path) and on to an `OutputLed`.

`notSelfComps`/`notSelfWires`: a single `NOT` gate whose output is wired
to its own input, with no source anywhere.

`xorComps`/`xorWires`: sources A (toggled to 1) and B (0) feeding a
2-input `XOR` that feeds an `OutputLed` — the incremental re-simulation
scenario.
-/

def oscComps : List SimComp :=
  [⟨.INPUT, 1, [], 1⟩, ⟨.XOR, 0, [0, 0], 0⟩, ⟨.OUTPUT, 0, [0], 0⟩]

def oscWires : List SimWire :=
  [⟨0, 1, 0⟩, ⟨1, 1, 1⟩, ⟨1, 2, 0⟩]

def oscStart : SimState := ⟨oscComps, [0, 0, 0], buildSimulationQueue oscComps⟩

/-- The oscillating run enters a periodic orbit after 3 events. -/
def oscOrbit : SimState := (stepState oscWires)^[3] oscStart

def notSelfComps : List SimComp := [⟨.NOT, 0, [0], 0⟩]

def notSelfWires : List SimWire := [⟨0, 0, 0⟩]

def notSelfState : SimState := ⟨notSelfComps, [0], []⟩

def xorComps : List SimComp :=
  [⟨.INPUT, 1, [], 1⟩, ⟨.INPUT, 0, [], 0⟩, ⟨.XOR, 0, [0, 0], 0⟩, ⟨.OUTPUT, 0, [0], 0⟩]

def xorWires : List SimWire :=
  [⟨0, 2, 0⟩, ⟨1, 2, 1⟩, ⟨2, 3, 0⟩]

/-- The first run of the scenario: fresh wire/node states, queue built
from both sources. -/
def xorRun1 : SimState := ⟨xorComps, [0, 0, 0], buildSimulationQueue xorComps⟩

/-- The stable state the first run drains to (sink lit). -/
def xorStable : SimState := (processQueue xorWires xorRun1).final

/-- `Simulator.toggleInput` applied to source B, then
`AnimationManager.startSimulation`'s queue rebuild. -/
def xorToggledB : SimState := toggleInput xorStable 1

def xorRun2 : SimState := { xorToggledB with queue := buildSimulationQueue xorToggledB.comps }

def xorRun2Result : DrainResult := processQueue xorWires xorRun2

/-!
## The component/wire object graph (`components.js`, `simulator.js`)

The builder-level model keeps the object identities the source relies
on: every `Node`, `BaseGate` and `Wire` draws a fresh id from the
module-global `componentIdCounter`, nodes carry their owner and a list of
attached wires (`connections`), and wires reference their endpoint nodes
— so a wire can keep referencing a node that a later
`rebuildInputNodes` discarded.  JavaScript object references become ids;
`indexOf` on a node object becomes locating the unique node with that
id.  Geometry (`x`/`y` are kept, since serialization stores them;
`relX`/`relY`/width/height are not read back by anything modelled). -/

/-- `Node.type`: `'input'` or `'output'`. -/
inductive NodeType
  | input
  | output
deriving DecidableEq

/-- The `Node` class: a connection point owned by `parentId`, with a
signal state and the list of attached wire ids (`connections`). -/
structure BNode where
  id : Nat
  parentId : Nat
  ntype : NodeType
  state : Nat
  connections : List Nat
deriving DecidableEq

/-- A `BaseGate` instance: id, kind (`label` in the source is the kind
string), position, user label, `state` (used by `InputToggle` and
`OutputLed`), and the node lists. -/
structure BComponent where
  id : Nat
  kind : GateKind
  x : Int
  y : Int
  customLabel : String
  state : Nat
  inputNodes : List BNode
  outputNodes : List BNode
deriving DecidableEq

/-- The `Wire` class: fresh id, endpoint node ids, cached state. -/
structure BWire where
  id : Nat
  startNode : Nat
  endNode : Nat
  state : Nat
deriving DecidableEq

/-- The `Simulator` store plus the module-global `componentIdCounter`. -/
structure Model where
  counter : Nat
  allComponents : List BComponent
  allWires : List BWire
deriving DecidableEq

/-- The clamping in `rebuildInputNodes`: below 2 (or not a number)
becomes 2, above 8 becomes 8. -/
def clampInputCount (n : Nat) : Nat :=
  if n < 2 then 2 else if n > 8 then 8 else n

/-- `BaseGate.rebuildInputNodes`: clear the old input nodes and create
`clampInputCount count` fresh ones (empty `connections`, state 0), drawing
fresh ids from the global counter.  Returns the rebuilt component and the
advanced counter. -/
def rebuildInputNodes (c : BComponent) (counter : Nat) (count : Nat) : BComponent × Nat :=
  let k := clampInputCount count
  ({ c with inputNodes :=
      (List.range k).map (fun i => ⟨counter + i, c.id, .input, 0, []⟩) },
   counter + k)

/-- Whether the kind's class overrides `setInputCount` (the six
multi-input gates do; `INPUT`, `OUTPUT` and `NOT` inherit the base-class
stub that does nothing). -/
def hasDynamicInputs (k : GateKind) : Bool :=
  match k with
  | .AND | .OR | .XOR | .NAND | .NOR | .XNOR => true
  | _ => false

/-- `setInputCount` as dispatched on the component's class. -/
def setInputCountComp (c : BComponent) (counter : Nat) (count : Nat) : BComponent × Nat :=
  if hasDynamicInputs c.kind then rebuildInputNodes c counter count else (c, counter)

/-- `String.prototype.trim`: strip leading and trailing whitespace.
(Expressed over the character list so that it evaluates inside the
kernel.) -/
def trimString (s : String) : String :=
  ⟨((s.data.dropWhile Char.isWhitespace).reverse.dropWhile Char.isWhitespace).reverse⟩

/-- `BaseGate.setCustomLabel`: store the trimmed label. -/
def setCustomLabel (c : BComponent) (l : String) : BComponent :=
  { c with customLabel := trimString l }

/-- The constructors of `components.js`, by kind.  Each draws the
component id first, then its nodes, exactly in source order: `InputToggle`
and the gates create their output node before any input nodes; the
multi-input gates then run `setInputCount(2)`.  Returns the new component
and the advanced counter. -/
def mkComponent (k : GateKind) (counter : Nat) (x y : Int) : BComponent × Nat :=
  match k with
  | .INPUT =>
    (⟨counter, .INPUT, x, y, "", 0, [], [⟨counter + 1, counter, .output, 0, []⟩]⟩, counter + 2)
  | .OUTPUT =>
    (⟨counter, .OUTPUT, x, y, "", 0, [⟨counter + 1, counter, .input, 0, []⟩], []⟩, counter + 2)
  | .NOT =>
    (⟨counter, .NOT, x, y, "", 0, [⟨counter + 1, counter, .input, 0, []⟩],
      [⟨counter + 2, counter, .output, 0, []⟩]⟩, counter + 3)
  | k =>
    setInputCountComp
      ⟨counter, k, x, y, "", 0, [], [⟨counter + 1, counter, .output, 0, []⟩]⟩
      (counter + 2) 2

/-- `Simulator.addComponent`: push onto the master list. -/
def addComponent (m : Model) (c : BComponent) : Model :=
  { m with allComponents := m.allComponents ++ [c] }

/-- `node.connections.push(wire)` for the node with id `nid`, wherever it
lives. -/
def pushConnection (c : BComponent) (nid : Nat) (wid : Nat) : BComponent :=
  { c with
      inputNodes := c.inputNodes.map
        (fun n => if n.id = nid then { n with connections := n.connections ++ [wid] } else n),
      outputNodes := c.outputNodes.map
        (fun n => if n.id = nid then { n with connections := n.connections ++ [wid] } else n) }

/-- `Simulator.addWire`: push the wire onto the master list and link it
into both endpoint nodes' `connections` — with no validation of roles or
existing connections whatsoever. -/
def addWire (m : Model) (w : BWire) : Model :=
  { m with
      allWires := m.allWires ++ [w],
      allComponents :=
        (m.allComponents.map (fun c => pushConnection c w.startNode w.id)).map
          (fun c => pushConnection c w.endNode w.id) }

/-- The `Wire` constructor: fresh id from the global counter, state 0. -/
def mkWire (counter : Nat) (startN endN : Nat) : BWire × Nat :=
  (⟨counter, startN, endN, 0⟩, counter + 1)

/-- `setInputCount` invoked on component `idx` of the model (the
properties-panel path). -/
def modelSetInputCount (m : Model) (idx : Nat) (count : Nat) : Model :=
  match m.allComponents.get? idx with
  | none => m
  | some c =>
    let p := setInputCountComp c m.counter count
    { m with counter := p.2, allComponents := m.allComponents.set idx p.1 }

/-- `Simulator.resetSimulation`: clear both master lists (the module
global `componentIdCounter` is never reset). -/
def resetSimulation (m : Model) : Model :=
  { m with allComponents := [], allWires := [] }

/-!
## Serialization (`Simulator.getCircuitData` / `loadCircuitData`)
-/

/-- One serialized component record: `{type, x, y, customLabel,
inputCount, state}` (`state` only stored for an `InputToggle`). -/
structure SerComponent where
  stype : GateKind
  x : Int
  y : Int
  customLabel : String
  inputCount : Nat
  state : Option Nat
deriving DecidableEq

/-- One serialized wire record: component indices into the serialized
component array plus node indices within the endpoint components'
`outputNodes`/`inputNodes`. -/
structure SerWire where
  fromComponentIndex : Nat
  fromNodeIndex : Nat
  toComponentIndex : Nat
  toNodeIndex : Nat
deriving DecidableEq

/-- The circuit data object produced by `getCircuitData`. -/
structure CircuitData where
  components : List SerComponent
  wires : List SerWire
deriving DecidableEq

def serializeComponent (c : BComponent) : SerComponent :=
  ⟨c.kind, c.x, c.y, c.customLabel, c.inputNodes.length,
    if c.kind = .INPUT then some c.state else none⟩

/-- `indexOf` over a node list, comparing by node id (object identity in
the source). -/
def findNodeIdx (nid : Nat) : List BNode → Option Nat
  | [] => none
  | n :: rest => if n.id = nid then some 0 else (findNodeIdx nid rest).map (fun j => j + 1)

/-- Find, scanning components in master-list order, the one whose node
list selected by `f` holds the node with id `nid`; return the component's
index and the node's index in that list.  This is
`allComponents.indexOf(node.parentComponent)` paired with
`parent.outputNodes.indexOf(node)` (resp. `inputNodes`), expressed over
node ids: in the source the node object determines its parent, and node
ids are globally unique. -/
def locateNode (f : BComponent → List BNode) :
    List BComponent → Nat → Nat → Option (Nat × Nat)
  | [], _, _ => none
  | c :: rest, nid, i =>
    match findNodeIdx nid (f c) with
    | some j => some (i, j)
    | none => locateNode f rest nid (i + 1)

def locateOutputNode (comps : List BComponent) (nid : Nat) : Option (Nat × Nat) :=
  locateNode (fun c => c.outputNodes) comps nid 0

def locateInputNode (comps : List BComponent) (nid : Nat) : Option (Nat × Nat) :=
  locateNode (fun c => c.inputNodes) comps nid 0

/-- Serialize one wire; `none` when an index cannot be resolved (the
source then logs a warning and filters the wire out). -/
def serializeWire (comps : List BComponent) (w : BWire) : Option SerWire :=
  match locateOutputNode comps w.startNode, locateInputNode comps w.endNode with
  | some p, some q => some ⟨p.1, p.2, q.1, q.2⟩
  | _, _ => none

/-- `Simulator.getCircuitData`. -/
def getCircuitData (m : Model) : CircuitData :=
  ⟨m.allComponents.map serializeComponent,
    m.allWires.filterMap (serializeWire m.allComponents)⟩

/-- Re-hydrate one component from its record (`loadCircuitData` phase 1
body): construct by kind, `setCustomLabel(c.customLabel || "")`, apply
`setInputCount` when the stored count is truthy (nonzero), then restore
an `InputToggle`'s state onto the component and its output node. -/
def loadComponent (counter : Nat) (sc : SerComponent) : BComponent × Nat :=
  let p := mkComponent sc.stype counter sc.x sc.y
  let c1 := setCustomLabel p.1 sc.customLabel
  let q := if sc.inputCount ≠ 0 then setInputCountComp c1 p.2 sc.inputCount else (c1, p.2)
  let c3 :=
    match sc.stype, sc.state with
    | .INPUT, some st =>
      { q.1 with state := st,
                 outputNodes :=
                   match q.1.outputNodes with
                   | o :: rest => { o with state := st } :: rest
                   | [] => [] }
    | _, _ => q.1
  (c3, q.2)

/-- Phase 1 of `loadCircuitData`: re-hydrate the components in order
(each is pushed by `addComponent`, and `loadedComponents` accumulates the
same list). -/
def loadComponents (counter : Nat) : List SerComponent → List BComponent × Nat
  | [] => ([], counter)
  | sc :: rest =>
    let p := loadComponent counter sc
    let q := loadComponents p.2 rest
    (p.1 :: q.1, q.2)

/-- Phase 2 of `loadCircuitData`: re-hydrate the wires.  Component and
node lookups use the phase-1 `loadedComponents` array; a wire whose
component or node index does not resolve is skipped with a console
warning (`continue`), and loading proceeds. -/
def loadWires (loaded : List BComponent) (m : Model) : List SerWire → Model
  | [] => m
  | sw :: rest =>
    match loaded[sw.fromComponentIndex]?, loaded[sw.toComponentIndex]? with
    | some fromComp, some toComp =>
      match fromComp.outputNodes[sw.fromNodeIndex]?, toComp.inputNodes[sw.toNodeIndex]? with
      | some fromNode, some toNode =>
        let p := mkWire m.counter fromNode.id toNode.id
        loadWires loaded (addWire { m with counter := p.2 } p.1) rest
      | _, _ => loadWires loaded m rest
    | _, _ => loadWires loaded m rest

/-- `Simulator.loadCircuitData`: reset the board, re-hydrate components,
then wires. -/
def loadCircuitData (m : Model) (data : CircuitData) : Model :=
  let m0 := resetSimulation m
  let p := loadComponents m0.counter data.components
  let m1 := { m0 with counter := p.2, allComponents := p.1 }
  loadWires m1.allComponents m1 data.wires

/-!
### Concrete witness fixtures
-/

/-- A toggled source wired to an LED, for exercising `PROPAGATE`. -/
def propWitnessWires : List SimWire := [⟨0, 1, 0⟩]

def propWitnessState : SimState := ⟨[⟨.INPUT, 1, [], 1⟩, ⟨.OUTPUT, 0, [0], 0⟩], [0], []⟩

/-- A lone AND gate with both inputs high, for exercising `CALCULATE`. -/
def calcWitnessState : SimState := ⟨[⟨.AND, 0, [1, 1], 0⟩], [], []⟩

/-!
### Concrete builder models

`c6…`: a toggle and an LED; two wires are then added onto the same LED
input node, plus a third wire whose endpoints have the wrong roles.

`c9And`/`c10…`: gates for the arity-clamping and input-rebuild claims.

`emptyModel`, `danglingData`, `mixedData`: serialized data with wire
records referring to missing components, for the load-time claims.
-/

def c6Toggle : BComponent := (mkComponent .INPUT 0 0 0).1

def c6Led : BComponent := (mkComponent .OUTPUT 2 0 0).1

def c6Wire1 : BWire := (mkWire 4 1 3).1

def c6Wire2 : BWire := (mkWire 5 1 3).1

/-- A wire whose `startNode` is the LED's input node and whose `endNode`
is the toggle's output node — both endpoint roles wrong. -/
def c6BadWire : BWire := (mkWire 6 3 1).1

def c6M1 : Model := addWire ⟨5, [c6Toggle, c6Led], []⟩ c6Wire1

def c6M2 : Model := addWire { c6M1 with counter := 6 } c6Wire2

def c6M3 : Model := addWire { c6M2 with counter := 7 } c6BadWire

def c9And : BComponent := (mkComponent .AND 0 0 0).1

def c10And : BComponent := (mkComponent .AND 2 0 0).1

/-- Toggle output node (id 1) wired into the AND gate's first input node
(id 4). -/
def c10Wire : BWire := (mkWire 6 1 4).1

def c10M : Model := addWire ⟨7, [c6Toggle, c10And], []⟩ c10Wire

def emptyModel : Model := ⟨0, [], []⟩

/-- One component, and a wire record pointing at component index 5 which
does not exist. -/
def danglingData : CircuitData := ⟨[⟨.INPUT, 0, 0, "", 0, some 1⟩], [⟨5, 0, 0, 0⟩]⟩

/-- Two components; the first wire record resolves, the second points at
component index 7 which does not exist. -/
def mixedData : CircuitData :=
  ⟨[⟨.INPUT, 0, 0, "", 0, some 1⟩, ⟨.OUTPUT, 100, 0, "", 1, none⟩],
    [⟨0, 0, 1, 0⟩, ⟨7, 0, 1, 0⟩]⟩

/-!
### Well-formedness for the round-trip claim

A model is well-formed when every component has the node-list shape its
kind's constructor produces (arity within [2,8] for multi-input gates), a
trim-stable custom label (labels only ever enter through
`setCustomLabel`, which trims), globally distinct node ids (ids come from
the strictly increasing `componentIdCounter`), and wires whose endpoints
resolve to an existing output node and input node respectively.
-/

def inputIds (c : BComponent) : List Nat := c.inputNodes.map (fun n => n.id)

def outputIds (c : BComponent) : List Nat := c.outputNodes.map (fun n => n.id)

def nodeIds (c : BComponent) : List Nat := inputIds c ++ outputIds c

def wfComponent (c : BComponent) : Bool :=
  (match c.kind with
    | GateKind.INPUT => c.inputNodes.length == 0 && c.outputNodes.length == 1
    | GateKind.OUTPUT => c.inputNodes.length == 1 && c.outputNodes.length == 0
    | GateKind.NOT => c.inputNodes.length == 1 && c.outputNodes.length == 1
    | _ => (2 ≤ c.inputNodes.length && c.inputNodes.length ≤ 8)
        && c.outputNodes.length == 1)
  && (trimString c.customLabel == c.customLabel)

def wfModel (m : Model) : Bool :=
  m.allComponents.all wfComponent
  && ((m.allComponents.map nodeIds).flatten.Nodup : Bool)
  && m.allWires.all (fun w =>
      (locateOutputNode m.allComponents w.startNode).isSome
      && (locateInputNode m.allComponents w.endNode).isSome)

/-!
### The spec's save/load scenario

An `AND` gate at arity 2 with both inputs wired from toggles and its
output wired to an LED.
-/

def c8ToggleA : BComponent := (mkComponent .INPUT 0 0 0).1

def c8ToggleB : BComponent := (mkComponent .INPUT 2 0 100).1

def c8And : BComponent := (mkComponent .AND 4 200 50).1

def c8Led : BComponent := (mkComponent .OUTPUT 8 400 50).1

def c8WireA : BWire := (mkWire 10 1 6).1

def c8WireB : BWire := (mkWire 11 3 7).1

def c8WireOut : BWire := (mkWire 12 5 9).1

def c8M : Model :=
  addWire (addWire (addWire ⟨13, [c8ToggleA, c8ToggleB, c8And, c8Led], []⟩ c8WireA) c8WireB)
    c8WireOut

/-- The AND gate of `c10M` after `addWire` linked wire 6 into its first
input node. -/
def c10AndLinked : BComponent :=
  ⟨2, .AND, 0, 0, "", 0, [⟨4, 2, .input, 0, [6]⟩, ⟨5, 2, .input, 0, []⟩],
    [⟨3, 2, .output, 0, []⟩]⟩

/-!
## Theorems
-/

theorem boolIf_eq_one (c : Bool) : ((if c then (1 : Nat) else 0) = 1) ↔ c = true := by
  cases c <;> simp

theorem count_one_eq_filter_length (states : List Nat) :
    states.count 1 = (states.filter (fun s => s == 1)).length := by
  simp [List.count_eq_countP, List.countP_eq_length_filter]

/-- C1: for every gate kind and input-state vector, `calculate()`
implements the spec truth table — `AND` is 1 iff all input states are 1,
`OR` iff some state is 1, `NAND`/`NOR` are the `NOT`-inverses of
`AND`/`OR`, `XOR` is 1 iff the number of inputs at 1 is odd, `XNOR` iff
it is even, and `NOT` inverts its single 0/1 input. -/
theorem calculate_truth_tables (states : List Nat) (s : Nat) (hs : s = 0 ∨ s = 1) :
    (andCalculate states = 1 ↔ ∀ x ∈ states, x = 1) ∧
    (orCalculate states = 1 ↔ ∃ x ∈ states, x = 1) ∧
    nandCalculate states = notCalculate (andCalculate states) ∧
    norCalculate states = notCalculate (orCalculate states) ∧
    (xorCalculate states = 1 ↔ Odd (states.count 1)) ∧
    (xnorCalculate states = 1 ↔ Even (states.count 1)) ∧
    notCalculate s = 1 - s := by
  refine ⟨?_, ?_, ?_, ?_, ?_, ?_, ?_⟩
  · rw [andCalculate, boolIf_eq_one, List.all_eq_true]
    simp
  · rw [orCalculate, boolIf_eq_one, List.any_eq_true]
    simp
  · rw [nandCalculate, andCalculate, notCalculate]
    cases h : states.all (fun s => s == 1) <;> simp
  · rw [norCalculate, orCalculate, notCalculate]
    cases h : states.any (fun s => s == 1) <;> simp
  · rw [xorCalculate, boolIf_eq_one, Nat.odd_iff, count_one_eq_filter_length]
    simp
  · rw [xnorCalculate, boolIf_eq_one, Nat.even_iff, count_one_eq_filter_length]
    simp
  · rcases hs with h | h <;> subst h <;> rfl

/-- Witness for C1 at the vector `[1, 0, 1]` and single input `1`. -/
theorem calculate_truth_tables_witness :
    ((1 : Nat) = 0 ∨ (1 : Nat) = 1) ∧
    ((andCalculate [1, 0, 1] = 1 ↔ ∀ x ∈ ([1, 0, 1] : List Nat), x = 1) ∧
      (orCalculate [1, 0, 1] = 1 ↔ ∃ x ∈ ([1, 0, 1] : List Nat), x = 1) ∧
      nandCalculate [1, 0, 1] = notCalculate (andCalculate [1, 0, 1]) ∧
      norCalculate [1, 0, 1] = notCalculate (orCalculate [1, 0, 1]) ∧
      (xorCalculate [1, 0, 1] = 1 ↔ Odd (([1, 0, 1] : List Nat).count 1)) ∧
      (xnorCalculate [1, 0, 1] = 1 ↔ Even (([1, 0, 1] : List Nat).count 1)) ∧
      notCalculate 1 = 1 - 1) :=
  ⟨Or.inr rfl, calculate_truth_tables [1, 0, 1] 1 (Or.inr rfl)⟩

/-- C2: processing `PROPAGATE(wire, newState)` on a well-formed wire
(whose destination component exists and is not a source): when both
`wire.state` and the destination node's state already equal `newState`,
the state is left entirely unchanged and nothing is enqueued; otherwise
both are set to `newState` and a single `CALCULATE` event for the
destination's owning component is appended to the queue. -/
theorem propagate_event_frame (wires : List SimWire) (s : SimState) (j ns : Nat)
    (w : SimWire) (dc : SimComp)
    (hw : wires.get? j = some w)
    (hdc : s.comps.get? w.dst = some dc)
    (hkind : dc.kind ≠ GateKind.INPUT) :
    (s.wireStates.getD j 0 = ns ∧ dc.inputs.getD w.dstPort 0 = ns →
      processEvent wires s (SimEvent.propagate j ns) = s) ∧
    (¬ (s.wireStates.getD j 0 = ns ∧ dc.inputs.getD w.dstPort 0 = ns) →
      processEvent wires s (SimEvent.propagate j ns) =
        { s with
            wireStates := s.wireStates.set j ns,
            comps := s.comps.set w.dst { dc with inputs := dc.inputs.set w.dstPort ns },
            queue := s.queue ++ [SimEvent.calculate w.dst] }) := by
  rw [List.get?_eq_getElem?] at hw hdc
  constructor
  · intro h
    rw [List.getD_eq_getElem?_getD, List.getD_eq_getElem?_getD] at h
    simp [processEvent, hw, hdc, h]
  · intro h
    rw [List.getD_eq_getElem?_getD, List.getD_eq_getElem?_getD] at h
    simp [processEvent, hw, hdc, if_neg h, if_neg hkind]

/-- Witness for C2: propagating `1` along the toggle-to-LED wire updates
wire and node state and enqueues `CALCULATE` for the LED. -/
theorem propagate_event_frame_witness :
    propWitnessWires.get? 0 = some ⟨0, 1, 0⟩ ∧
    propWitnessState.comps.get? 1 = some ⟨.OUTPUT, 0, [0], 0⟩ ∧
    (¬ (propWitnessState.wireStates.getD 0 0 = 1 ∧
        (SimComp.mk .OUTPUT 0 [0] 0).inputs.getD 0 0 = 1) →
      processEvent propWitnessWires propWitnessState (SimEvent.propagate 0 1) =
        { propWitnessState with
            wireStates := propWitnessState.wireStates.set 0 1,
            comps := propWitnessState.comps.set 1
              { SimComp.mk .OUTPUT 0 [0] 0 with inputs := [0].set 0 1 },
            queue := propWitnessState.queue ++ [SimEvent.calculate 1] }) :=
  ⟨rfl, rfl,
    (propagate_event_frame propWitnessWires propWitnessState 0 1 ⟨0, 1, 0⟩
      ⟨.OUTPUT, 0, [0], 0⟩ rfl rfl (by decide)).2⟩

/-- C3: processing `CALCULATE(component)` computes the new output through
the pure per-kind evaluation (`gateCalculate`); an `OutputLed` always
accepts the mirrored input into its lit state with nothing enqueued; any
other component updates its output node and enqueues one `PROPAGATE` per
wire on that node exactly when the computed output differs from the prior
output-node state, and does nothing at all otherwise. -/
theorem calculate_event_effect (wires : List SimWire) (s : SimState) (g : Nat) (c : SimComp)
    (hc : s.comps.get? g = some c) :
    (c.kind = GateKind.OUTPUT →
      processEvent wires s (SimEvent.calculate g) =
        { s with comps := s.comps.set g { c with state := c.inputs.getD 0 0 } }) ∧
    (c.kind ≠ GateKind.OUTPUT →
      (gateCalculate c.kind c = c.output →
        processEvent wires s (SimEvent.calculate g) = s) ∧
      (gateCalculate c.kind c ≠ c.output →
        processEvent wires s (SimEvent.calculate g) =
          { s with
              comps := s.comps.set g { c with output := gateCalculate c.kind c },
              queue := s.queue ++ (wiresFrom wires g).map
                  (fun i => SimEvent.propagate i (gateCalculate c.kind c)) })) := by
  rw [List.get?_eq_getElem?] at hc
  constructor
  · intro hk
    simp [processEvent, hc, hk, gateCalculate]
  · intro hk
    constructor
    · intro he
      simp [processEvent, hc, hk, he]
    · intro he
      simp [processEvent, hc, if_neg hk, if_neg (Ne.symm he)]

/-- Witness for C3: recalculating an AND gate with both inputs high flips
its output node to 1 and enqueues nothing (it has no outgoing wires). -/
theorem calculate_event_effect_witness :
    calcWitnessState.comps.get? 0 = some ⟨.AND, 0, [1, 1], 0⟩ ∧
    (GateKind.AND ≠ GateKind.OUTPUT →
      (gateCalculate .AND ⟨.AND, 0, [1, 1], 0⟩ = 0 →
        processEvent [] calcWitnessState (SimEvent.calculate 0) = calcWitnessState) ∧
      (gateCalculate .AND ⟨.AND, 0, [1, 1], 0⟩ ≠ 0 →
        processEvent [] calcWitnessState (SimEvent.calculate 0) =
          { calcWitnessState with
              comps := calcWitnessState.comps.set 0
                { SimComp.mk .AND 0 [1, 1] 0 with
                    output := gateCalculate .AND ⟨.AND, 0, [1, 1], 0⟩ },
              queue := calcWitnessState.queue ++ (wiresFrom [] 0).map
                  (fun i => SimEvent.propagate i (gateCalculate .AND ⟨.AND, 0, [1, 1], 0⟩)) })) :=
  ⟨rfl, (calculate_event_effect [] calcWitnessState 0 ⟨.AND, 0, [1, 1], 0⟩ rfl).2⟩

theorem processQueueAux_nil (wires : List SimWire) (fuel : Nat) (s : SimState) (counter : Nat)
    (h : s.queue = []) :
    processQueueAux wires fuel s counter = ⟨s, counter, .finished⟩ := by
  cases fuel <;> · rw [processQueueAux, h]

theorem processQueueAux_stop (wires : List SimWire) (fuel : Nat) (s : SimState) (counter : Nat)
    (e : SimEvent) (rest : List SimEvent) (h : s.queue = e :: rest)
    (hc : counter + 1 > MAX_SIMULATION_STEPS) :
    processQueueAux wires fuel s counter = ⟨s, counter, .limitReached⟩ := by
  cases fuel <;> · rw [processQueueAux, h]; simp [hc]

theorem processQueueAux_fuelZero (wires : List SimWire) (s : SimState) (counter : Nat)
    (e : SimEvent) (rest : List SimEvent) (h : s.queue = e :: rest)
    (hc : ¬ counter + 1 > MAX_SIMULATION_STEPS) :
    processQueueAux wires 0 s counter = ⟨s, counter, .limitReached⟩ := by
  rw [processQueueAux, h]; simp [hc]

theorem processQueueAux_step (wires : List SimWire) (fuel : Nat) (s : SimState) (counter : Nat)
    (e : SimEvent) (rest : List SimEvent) (h : s.queue = e :: rest)
    (hc : ¬ counter + 1 > MAX_SIMULATION_STEPS) :
    processQueueAux wires (fuel + 1) s counter =
      processQueueAux wires fuel (processEvent wires { s with queue := rest } e) (counter + 1) := by
  rw [processQueueAux, h]; simp [hc]

theorem processQueueAux_processed_le (wires : List SimWire) (fuel : Nat) :
    ∀ (s : SimState) (counter : Nat), counter ≤ MAX_SIMULATION_STEPS →
      (processQueueAux wires fuel s counter).processed ≤ MAX_SIMULATION_STEPS := by
  induction fuel with
  | zero =>
    intro s counter h
    cases hq : s.queue with
    | nil => rw [processQueueAux_nil wires _ s counter hq]; exact h
    | cons e rest =>
      by_cases hc : counter + 1 > MAX_SIMULATION_STEPS
      · rw [processQueueAux_stop wires _ s counter e rest hq hc]; exact h
      · rw [processQueueAux_fuelZero wires s counter e rest hq hc]; exact h
  | succ fuel ih =>
    intro s counter h
    cases hq : s.queue with
    | nil => rw [processQueueAux_nil wires _ s counter hq]; exact h
    | cons e rest =>
      by_cases hc : counter + 1 > MAX_SIMULATION_STEPS
      · rw [processQueueAux_stop wires _ s counter e rest hq hc]; exact h
      · rw [processQueueAux_step wires fuel s counter e rest hq hc]
        exact ih _ (counter + 1) (by omega)

theorem processQueueAux_limit_exact (wires : List SimWire) (fuel : Nat) :
    ∀ (s : SimState) (counter : Nat), counter + fuel = MAX_SIMULATION_STEPS →
      (processQueueAux wires fuel s counter).status = SimStatus.finished ∨
        (processQueueAux wires fuel s counter).processed = MAX_SIMULATION_STEPS := by
  induction fuel with
  | zero =>
    intro s counter h
    cases hq : s.queue with
    | nil => rw [processQueueAux_nil wires _ s counter hq]; left; rfl
    | cons e rest =>
      rw [processQueueAux_stop wires _ s counter e rest hq (by omega)]
      right; simpa using h
  | succ fuel ih =>
    intro s counter h
    cases hq : s.queue with
    | nil => rw [processQueueAux_nil wires _ s counter hq]; left; rfl
    | cons e rest =>
      rw [processQueueAux_step wires fuel s counter e rest hq (by omega)]
      exact ih _ (counter + 1) (by omega)

theorem stepState_eq (wires : List SimWire) (s : SimState) (e : SimEvent) (rest : List SimEvent)
    (h : s.queue = e :: rest) :
    stepState wires s = processEvent wires { s with queue := rest } e := by
  rw [stepState, h]

theorem processQueueAux_limit_of_never_empty (wires : List SimWire) (fuel : Nat) :
    ∀ (s : SimState) (counter : Nat), counter + fuel = MAX_SIMULATION_STEPS →
      (∀ k, ((stepState wires)^[k] s).queue ≠ []) →
      (processQueueAux wires fuel s counter).status = SimStatus.limitReached ∧
        (processQueueAux wires fuel s counter).processed = MAX_SIMULATION_STEPS := by
  induction fuel with
  | zero =>
    intro s counter h hne
    obtain ⟨e, rest, hq⟩ : ∃ e rest, s.queue = e :: rest := by
      cases hq : s.queue with
      | nil => exact absurd (by simpa using hq) (by simpa using hne 0)
      | cons e rest => exact ⟨e, rest, rfl⟩
    rw [processQueueAux_stop wires _ s counter e rest hq (by omega)]
    exact ⟨rfl, by simpa using h⟩
  | succ fuel ih =>
    intro s counter h hne
    obtain ⟨e, rest, hq⟩ : ∃ e rest, s.queue = e :: rest := by
      cases hq : s.queue with
      | nil => exact absurd (by simpa using hq) (by simpa using hne 0)
      | cons e rest => exact ⟨e, rest, rfl⟩
    rw [processQueueAux_step wires fuel s counter e rest hq (by omega)]
    refine ih _ (counter + 1) (by omega) ?_
    intro k
    have := hne (k + 1)
    rwa [Function.iterate_succ_apply, stepState_eq wires s e rest hq] at this

theorem iterate_eq_iterate_mod {α : Type} (f : α → α) (p : Nat) (hp : 0 < p) (x : α)
    (hper : f^[p] x = x) : ∀ j, f^[j] x = f^[j % p] x := by
  intro j
  induction j using Nat.strong_induction_on with
  | _ j ih =>
    rcases Nat.lt_or_ge j p with h | h
    · rw [Nat.mod_eq_of_lt h]
    · have h1 : j - p + p = j := Nat.sub_add_cancel h
      have h2 : f^[j] x = f^[j - p] x := by
        conv_lhs => rw [← h1]
        rw [Function.iterate_add_apply, hper]
      rw [h2, ih (j - p) (by omega), Nat.mod_eq_sub_mod h]

theorem oscOrbit_periodic : (stepState oscWires)^[8] oscOrbit = oscOrbit := by decide

theorem oscOrbit_nonempty : ∀ r < 8, ((stepState oscWires)^[r] oscOrbit).queue ≠ [] := by decide

theorem osc_prefix_nonempty : ∀ k < 3, ((stepState oscWires)^[k] oscStart).queue ≠ [] := by
  decide

theorem osc_never_empty : ∀ k, ((stepState oscWires)^[k] oscStart).queue ≠ [] := by
  intro k
  rcases Nat.lt_or_ge k 3 with h | h
  · exact osc_prefix_nonempty k h
  · have h1 : k - 3 + 3 = k := Nat.sub_add_cancel h
    have h2 : (stepState oscWires)^[k] oscStart = (stepState oscWires)^[k - 3] oscOrbit := by
      conv_lhs => rw [← h1]
      rw [Function.iterate_add_apply]
      rfl
    rw [h2,
      iterate_eq_iterate_mod (stepState oscWires) 8 (by norm_num) oscOrbit oscOrbit_periodic]
    exact oscOrbit_nonempty _ (Nat.mod_lt _ (by norm_num))

/-- C4 counterexample: the circuit consisting of exactly a `NOT` gate
whose output is wired back to its own input has an unbroken combinational
feedback path, yet a drain run on it reports nothing-to-simulate after
processing 0 events — the queue is seeded only from `InputToggle`s, so it
starts empty — rather than halting at the oscillation limit after
`MAX_SIMULATION_STEPS` processed events. -/
theorem notGate_selfLoop_run_no_limit :
    startSimulation notSelfWires notSelfState = RunOutcome.nothingToSimulate := by decide

/-- C4 amended: every drain run processes at most `MAX_SIMULATION_STEPS`
events, and a run that does not finish processes exactly
`MAX_SIMULATION_STEPS`; a *source-fed* unbroken feedback circuit (a
toggled source into an `XOR` wired back onto its own other input) does
halt at the oscillation limit after exactly `MAX_SIMULATION_STEPS`
processed events — but a sourceless feedback circuit such as the
self-wired `NOT` gate never even starts. -/
theorem drain_bound_and_oscillation (wires : List SimWire) (s : SimState) :
    (processQueue wires s).processed ≤ MAX_SIMULATION_STEPS ∧
    ((processQueue wires s).status = SimStatus.finished ∨
      (processQueue wires s).processed = MAX_SIMULATION_STEPS) ∧
    startSimulation oscWires ⟨oscComps, [0, 0, 0], []⟩ =
      RunOutcome.ran (processQueue oscWires oscStart) ∧
    (processQueue oscWires oscStart).status = SimStatus.limitReached ∧
    (processQueue oscWires oscStart).processed = MAX_SIMULATION_STEPS := by
  have hosc :=
    processQueueAux_limit_of_never_empty oscWires MAX_SIMULATION_STEPS oscStart 0 (by omega)
      osc_never_empty
  exact ⟨processQueueAux_processed_le wires MAX_SIMULATION_STEPS s 0 (by omega),
    processQueueAux_limit_exact wires MAX_SIMULATION_STEPS s 0 (by omega),
    rfl, hosc.1, hosc.2⟩

/-- C5 counterexample: in the A/B/XOR/sink scenario, toggling source B
and re-simulating rebuilds the queue with an `UPDATE_INPUT` event for
*every* source — A's included — so the initial queue has two events, not
exactly one for the toggled source only. -/
theorem toggle_rebuilds_queue_for_all_sources :
    buildSimulationQueue xorToggledB.comps =
      [SimEvent.updateInput 0, SimEvent.updateInput 1] ∧
    (buildSimulationQueue xorToggledB.comps).length ≠ 1 := by
  constructor <;> decide

/-- C5 amended: the first run (A=1, B=0) finishes with the sink lit; after
`toggleInput` on B the rebuilt queue holds one `UPDATE_INPUT` per source;
the re-run finishes in 7 processed events with the sink at 0, A's
propagate having been discarded by the change-detection gate: source A,
its wire state, and the XOR's first input are untouched. -/
theorem toggle_rerun_scenario :
    (processQueue xorWires xorRun1).status = SimStatus.finished ∧
    xorStable.comps.get? 3 = some ⟨.OUTPUT, 1, [1], 0⟩ ∧
    xorRun2.queue = [SimEvent.updateInput 0, SimEvent.updateInput 1] ∧
    xorRun2Result.status = SimStatus.finished ∧
    xorRun2Result.processed = 7 ∧
    xorRun2Result.final.comps.get? 3 = some ⟨.OUTPUT, 0, [0], 0⟩ ∧
    xorRun2Result.final.comps.get? 0 = xorStable.comps.get? 0 ∧
    xorRun2Result.final.comps.get? 1 = some ⟨.INPUT, 1, [], 1⟩ ∧
    xorRun2Result.final.wireStates.get? 0 = xorStable.wireStates.get? 0 := by
  refine ⟨?_, ?_, ?_, ?_, ?_, ?_, ?_, ?_, ?_⟩ <;> decide

theorem loadComponents_length : ∀ (scs : List SerComponent) (k : Nat),
    ((loadComponents k scs).1).length = scs.length := by
  intro scs
  induction scs with
  | nil => intro k; rfl
  | cons sc rest ih => intro k; simp [loadComponents, ih]

theorem loadWires_comps_length : ∀ (sws : List SerWire) (loaded : List BComponent) (m : Model),
    ((loadWires loaded m sws).allComponents).length = m.allComponents.length := by
  intro sws
  induction sws with
  | nil => intro loaded m; rfl
  | cons sw rest ih =>
    intro loaded m
    simp only [loadWires]
    cases h1 : loaded[sw.fromComponentIndex]? with
    | none => simp [ih, h1]
    | some fc =>
      cases h2 : loaded[sw.toComponentIndex]? with
      | none => simp [ih, h1, h2]
      | some tc =>
        cases h3 : fc.outputNodes[sw.fromNodeIndex]? with
        | none => simp [ih, h1, h2, h3]
        | some fn =>
          cases h4 : tc.inputNodes[sw.toNodeIndex]? with
          | none => simp [ih, h1, h2, h3, h4]
          | some tn => simp [ih, h1, h2, h3, h4, addWire]

/-- C6 counterexample: `Simulator.addWire` does not fail on a destination
node that already has an incoming wire, and does not leave the model
unchanged: after wiring the toggle to the LED input once (`c6M1`, whose
LED input already holds wire 4), adding a second wire onto the same LED
input succeeds — both wires are in the model and the input node lists
both connections — and even a wire whose endpoints have reversed roles
(`c6BadWire`) is accepted. -/
theorem addWire_accepts_duplicate_connection :
    ((c6M1.allComponents.get? 1).map (fun c => c.inputNodes.map (fun n => n.connections))) =
      some [[4]] ∧
    c6M2.allWires = [c6Wire1, c6Wire2] ∧
    ((c6M2.allComponents.get? 1).map (fun c => c.inputNodes.map (fun n => n.connections))) =
      some [[4, 5]] ∧
    c6M3.allWires.length = 3 := by
  refine ⟨?_, ?_, ?_, ?_⟩ <;> decide

/-- C6 amended: `addWire` performs no validation at all — it
unconditionally appends the wire to the master list and links it into
both endpoint nodes' connection lists, regardless of an existing incoming
wire on the destination or of the endpoints' roles; consequently an input
node can end up with several incoming wires. -/
theorem addWire_no_validation (m : Model) (w : BWire) :
    (addWire m w).allWires = m.allWires ++ [w] ∧
    ((c6M3.allComponents.get? 0).map (fun c => c.outputNodes.map (fun n => n.connections))) =
      some [[4, 5, 6]] := by
  exact ⟨rfl, by decide⟩

/-- C7 counterexample: loading `danglingData`, whose only wire record
refers to the missing component index 5, is not rejected: the component
is loaded and the unreferenceable wire is silently skipped. -/
theorem load_partially_applies_dangling_wires :
    (loadCircuitData emptyModel danglingData).allComponents.length = 1 ∧
    (loadCircuitData emptyModel danglingData).allWires = [] := by
  constructor <;> decide

/-- C7 amended: `loadCircuitData` always re-hydrates every component of
the file, and skips — individually, with loading proceeding — any wire
record whose component or node index does not resolve; `mixedData` (one
resolvable wire, one referring to missing component 7) loads both
components and exactly the one resolvable wire. -/
theorem load_applies_components_skips_bad_wires (m : Model) (data : CircuitData) :
    (loadCircuitData m data).allComponents.length = data.components.length ∧
    (loadCircuitData emptyModel mixedData).allComponents.length = 2 ∧
    (loadCircuitData emptyModel mixedData).allWires.length = 1 := by
  refine ⟨?_, by decide, by decide⟩
  simp [loadCircuitData, loadWires_comps_length, loadComponents_length]

/-- C9 counterexample: requesting arity 12 (outside [2,8]) on an AND gate
does not fail — `rebuildInputNodes` silently clamps it to 8 inputs; a
request of 1 is clamped up to 2; the load path behaves the same. -/
theorem setInputCount_silently_clamps :
    ((setInputCountComp c9And 4 12).1).inputNodes.length = 8 ∧
    ((setInputCountComp c9And 4 1).1).inputNodes.length = 2 ∧
    ((loadComponent 0 ⟨.AND, 0, 0, "", 12, none⟩).1).inputNodes.length = 8 := by
  refine ⟨?_, ?_, ?_⟩ <;> decide

/-- C9 amended: for the multi-input gate kinds, `setInputCount` always
succeeds and rebuilds exactly `clampInputCount n` input nodes, where the
requested count is clamped into [2,8] (in-range requests are kept
verbatim); there is no `InvalidArity` failure anywhere. -/
theorem setInputCount_clamp_spec (c : BComponent) (counter n : Nat)
    (h : hasDynamicInputs c.kind = true) :
    ((setInputCountComp c counter n).1).inputNodes.length = clampInputCount n ∧
    2 ≤ clampInputCount n ∧ clampInputCount n ≤ 8 ∧
    (2 ≤ n ∧ n ≤ 8 → clampInputCount n = n) := by
  refine ⟨?_, ?_, ?_, ?_⟩
  · simp [setInputCountComp, h, rebuildInputNodes]
  · unfold clampInputCount; split_ifs <;> omega
  · unfold clampInputCount; split_ifs <;> omega
  · intro hn; unfold clampInputCount; split_ifs <;> omega

/-- Witness for the amended C9 at the AND gate and requested arity 12. -/
theorem setInputCount_clamp_spec_witness :
    hasDynamicInputs c9And.kind = true ∧
    (((setInputCountComp c9And 4 12).1).inputNodes.length = clampInputCount 12 ∧
      2 ≤ clampInputCount 12 ∧ clampInputCount 12 ≤ 8 ∧
      (2 ≤ 12 ∧ 12 ≤ 8 → clampInputCount 12 = 12)) :=
  ⟨rfl, setInputCount_clamp_spec c9And 4 12 rfl⟩

/-- C10: on a multi-input gate with wires attached, `setInputCount n`
(n in [2,8]) replaces the input nodes by n brand-new nodes with empty
connection lists and ids drawn fresh from the global counter, while the
model's wire list is left untouched — the old wires stay in the model,
still referencing the discarded nodes' ids, which no new input node
carries; so every input of the gate is unconnected from the gate's point
of view. -/
theorem setInputCount_detaches_wires (m : Model) (idx n : Nat) (c : BComponent)
    (hc : m.allComponents.get? idx = some c)
    (hdyn : hasDynamicInputs c.kind = true)
    (hn : 2 ≤ n ∧ n ≤ 8)
    (hfresh : ∀ w ∈ m.allWires, w.startNode < m.counter ∧ w.endNode < m.counter) :
    (modelSetInputCount m idx n).allWires = m.allWires ∧
    ∃ c', (modelSetInputCount m idx n).allComponents.get? idx = some c' ∧
      c'.outputNodes = c.outputNodes ∧
      c'.inputNodes.length = n ∧
      (∀ nd ∈ c'.inputNodes, nd.connections = []) ∧
      (∀ nd ∈ c'.inputNodes, ∀ w ∈ m.allWires, w.startNode ≠ nd.id ∧ w.endNode ≠ nd.id) := by
  have hlt : idx < m.allComponents.length := by
    by_contra hh
    rw [List.get?_eq_getElem?, List.getElem?_eq_none (by omega)] at hc
    exact Option.noConfusion hc
  have hclamp : clampInputCount n = n := by
    unfold clampInputCount; split_ifs <;> omega
  rw [List.get?_eq_getElem?] at hc
  have hres : modelSetInputCount m idx n =
      { m with counter := m.counter + n,
               allComponents := m.allComponents.set idx
                 ({ c with inputNodes := ((List.range n).map
                     (fun i => (⟨m.counter + i, c.id, NodeType.input, 0, []⟩ : BNode))) }) } := by
    simp [modelSetInputCount, List.get?_eq_getElem?, hc, setInputCountComp, hdyn,
      rebuildInputNodes, hclamp]
  rw [hres]
  refine ⟨rfl, ⟨({ c with inputNodes := ((List.range n).map
      (fun i => (⟨m.counter + i, c.id, NodeType.input, 0, []⟩ : BNode))) } :
        BComponent), ?_, rfl, ?_, ?_, ?_⟩⟩
  · simp [List.get?_eq_getElem?, List.getElem?_set, hlt]
  · simp
  · intro nd hnd
    simp only [List.mem_map, List.mem_range] at hnd
    obtain ⟨i, hi, rfl⟩ := hnd
    rfl
  · intro nd hnd w hw
    simp only [List.mem_map, List.mem_range] at hnd
    obtain ⟨i, hi, rfl⟩ := hnd
    have := hfresh w hw
    constructor <;> · simp only []; omega

/-- Witness for C10: growing the wired AND gate of `c10M` to 3 inputs. -/
theorem setInputCount_detaches_wires_witness :
    c10M.allComponents.get? 1 = some c10AndLinked ∧
    ((modelSetInputCount c10M 1 3).allWires = c10M.allWires ∧
      ∃ c', (modelSetInputCount c10M 1 3).allComponents.get? 1 = some c' ∧
        c'.outputNodes = c10AndLinked.outputNodes ∧
        c'.inputNodes.length = 3 ∧
        (∀ nd ∈ c'.inputNodes, nd.connections = []) ∧
        (∀ nd ∈ c'.inputNodes, ∀ w ∈ c10M.allWires,
          w.startNode ≠ nd.id ∧ w.endNode ≠ nd.id)) :=
  ⟨by decide,
    setInputCount_detaches_wires c10M 1 3 c10AndLinked (by decide) rfl (by decide) (by decide)⟩

/-!
### The round-trip proof (C8)

Stage A establishes that re-hydrating one serialized component and
serializing it again is the identity on well-formed records; Stage B that
freshly drawn node ids are in-range, per-component distinct and pairwise
disjoint across the loaded list; Stage C a sound/complete theory of the
`indexOf`-style locate functions; Stage D that pushing wire connections
never disturbs node ids or serialized component records; Stage E replays
the wire list.
-/

theorem loadComponent_roundtrip (c : BComponent) (k : Nat) (hwf : wfComponent c = true) :
    serializeComponent ((loadComponent k (serializeComponent c)).1) = serializeComponent c := by
  simp only [wfComponent, Bool.and_eq_true, beq_iff_eq, decide_eq_true_eq] at hwf
  obtain ⟨hshape, hlabel⟩ := hwf
  cases hk : c.kind <;> rw [hk] at hshape <;>
    simp only [Bool.and_eq_true, beq_iff_eq, decide_eq_true_eq] at hshape
  case INPUT =>
    obtain ⟨h1, h2⟩ := hshape
    simp [serializeComponent, loadComponent, mkComponent, setCustomLabel, setInputCountComp,
      hasDynamicInputs, hk, h1, hlabel]
  case OUTPUT =>
    obtain ⟨h1, h2⟩ := hshape
    simp [serializeComponent, loadComponent, mkComponent, setCustomLabel, setInputCountComp,
      hasDynamicInputs, hk, h1, hlabel]
  case NOT =>
    obtain ⟨h1, h2⟩ := hshape
    simp [serializeComponent, loadComponent, mkComponent, setCustomLabel, setInputCountComp,
      hasDynamicInputs, hk, h1, hlabel]
  all_goals {
    obtain ⟨⟨h1, h2⟩, h3⟩ := hshape
    have hne : c.inputNodes.length ≠ 0 := by omega
    have hclamp : clampInputCount c.inputNodes.length = c.inputNodes.length := by
      unfold clampInputCount; split_ifs <;> omega
    simp [serializeComponent, loadComponent, mkComponent, setCustomLabel, setInputCountComp,
      rebuildInputNodes, hasDynamicInputs, hk, hne, hclamp, hlabel]
  }

theorem loadComponents_roundtrip (comps : List BComponent) :
    ∀ k : Nat, comps.all wfComponent = true →
      (((loadComponents k (comps.map serializeComponent)).1).map serializeComponent) =
        comps.map serializeComponent := by
  induction comps with
  | nil => intro k _; rfl
  | cons c rest ih =>
    intro k hwf
    rw [List.all_cons, Bool.and_eq_true] at hwf
    simp only [List.map_cons, loadComponents, List.map]
    rw [loadComponent_roundtrip c k hwf.1, ih _ hwf.2]

theorem loadComponent_shape (k : Nat) (sc : SerComponent) :
    ((loadComponent k sc).1).kind = sc.stype ∧
    ((loadComponent k sc).1).outputNodes.length = (if sc.stype = .OUTPUT then 0 else 1) := by
  cases hk : sc.stype <;>
    cases hst : sc.state <;>
      by_cases hne : sc.inputCount ≠ 0 <;>
        simp [loadComponent, mkComponent, setCustomLabel, setInputCountComp, rebuildInputNodes,
          hasDynamicInputs, hk, hst, hne]

-- ## Stage B: id freshness and separation

/-- All node ids of `c` lie in `[lo, hi)` and are distinct. -/
def IdsIn (c : BComponent) (lo hi : Nat) : Prop :=
  (∀ x ∈ nodeIds c, lo ≤ x ∧ x < hi) ∧ (nodeIds c).Nodup

theorem range_add_nodup (a n : Nat) : ((List.range n).map (fun i => a + i)).Nodup :=
  List.Nodup.map (fun x y h => by omega) (List.nodup_range n)

theorem mkComponent_idFacts (kd : GateKind) (k : Nat) (x y : Int) :
    k < (mkComponent kd k x y).2 ∧ IdsIn ((mkComponent kd k x y).1) k ((mkComponent kd k x y).2) := by
  cases kd <;>
    · refine ⟨?_, ?_, ?_⟩
      · simp [mkComponent, setInputCountComp, rebuildInputNodes, hasDynamicInputs, clampInputCount]
        all_goals omega
      · intro z hz
        simp [mkComponent, setInputCountComp, rebuildInputNodes, hasDynamicInputs,
          clampInputCount, nodeIds, inputIds, outputIds, List.range_succ] at hz ⊢
        all_goals omega
      · simp [mkComponent, setInputCountComp, rebuildInputNodes, hasDynamicInputs,
          clampInputCount, nodeIds, inputIds, outputIds, List.range_succ]
        all_goals omega

theorem rebuildInputNodes_idFacts (c : BComponent) (kc n lo hi : Nat)
    (hc : IdsIn c lo hi) (hk : hi ≤ kc) (hlo : lo ≤ hi) :
    kc < (rebuildInputNodes c kc n).2 ∧
      IdsIn ((rebuildInputNodes c kc n).1) lo ((rebuildInputNodes c kc n).2) := by
  obtain ⟨hb, hnd⟩ := hc
  have hclamp : 0 < clampInputCount n := by unfold clampInputCount; split_ifs <;> omega
  refine ⟨?_, ?_, ?_⟩
  · simp [rebuildInputNodes]; omega
  · intro z hz
    simp only [rebuildInputNodes, nodeIds, inputIds, outputIds, List.mem_append, List.map_map,
      List.mem_map, List.mem_range, Function.comp] at hz
    rcases hz with ⟨i, hi2, rfl⟩ | hz
    · simp [rebuildInputNodes]; omega
    · have := hb z (by simp [nodeIds, outputIds, inputIds]; right; simpa [outputIds] using hz)
      simp [rebuildInputNodes]
      omega
  · simp only [rebuildInputNodes, nodeIds, inputIds, outputIds, List.map_map, Function.comp]
    rw [List.nodup_append]
    refine ⟨?_, ?_, ?_⟩
    · exact range_add_nodup kc (clampInputCount n)
    · exact (List.nodup_append.mp (by simpa [nodeIds, inputIds, outputIds] using hnd)).2.1
    · intro a ha hmem
      simp only [List.mem_map, List.mem_range, Function.comp] at ha
      obtain ⟨i, hi2, rfl⟩ := ha
      have := hb (kc + i)
        (by simp only [nodeIds, inputIds, outputIds, List.mem_append]; right; simpa using hmem)
      omega

theorem IdsIn.mono {c : BComponent} {lo hi hi2 : Nat} (h : IdsIn c lo hi) (hh : hi ≤ hi2) :
    IdsIn c lo hi2 :=
  ⟨fun x hx => ⟨(h.1 x hx).1, lt_of_lt_of_le (h.1 x hx).2 hh⟩, h.2⟩

theorem setInputCountComp_idFacts (c : BComponent) (kc n lo : Nat) {hi : Nat}
    (hc : IdsIn c lo hi) (hk : hi ≤ kc) (hlo : lo ≤ hi) :
    kc ≤ (setInputCountComp c kc n).2 ∧
      IdsIn ((setInputCountComp c kc n).1) lo ((setInputCountComp c kc n).2) := by
  by_cases h : hasDynamicInputs c.kind = true
  · rw [setInputCountComp, if_pos h]
    obtain ⟨h1, h2⟩ := rebuildInputNodes_idFacts c kc n lo hi hc hk hlo
    exact ⟨le_of_lt h1, h2⟩
  · rw [setInputCountComp, if_neg h]
    exact ⟨le_rfl, hc.mono hk⟩

theorem nodeIds_setState (c : BComponent) (st : Nat) :
    nodeIds
      { c with
          state := st
          outputNodes :=
            match c.outputNodes with
            | o :: rest => { o with state := st } :: rest
            | [] => [] } =
      nodeIds c := by
  cases h : c.outputNodes <;> simp [nodeIds, inputIds, outputIds, h]

theorem loadComponent_proj_pos (k : Nat) (sc : SerComponent) (hne : sc.inputCount ≠ 0) :
    nodeIds (loadComponent k sc).1 =
      nodeIds (setInputCountComp (setCustomLabel (mkComponent sc.stype k sc.x sc.y).1
        sc.customLabel) (mkComponent sc.stype k sc.x sc.y).2 sc.inputCount).1 ∧
    (loadComponent k sc).2 = (setInputCountComp (setCustomLabel
        (mkComponent sc.stype k sc.x sc.y).1 sc.customLabel)
        (mkComponent sc.stype k sc.x sc.y).2 sc.inputCount).2 := by
  rw [loadComponent]
  cases hty : sc.stype <;> cases hst : sc.state <;> simp [hne, nodeIds_setState]

theorem loadComponent_proj_neg (k : Nat) (sc : SerComponent) (hne : ¬ sc.inputCount ≠ 0) :
    nodeIds (loadComponent k sc).1 =
      nodeIds (setCustomLabel (mkComponent sc.stype k sc.x sc.y).1 sc.customLabel) ∧
    (loadComponent k sc).2 = (mkComponent sc.stype k sc.x sc.y).2 := by
  rw [loadComponent]
  cases hty : sc.stype <;> cases hst : sc.state <;> simp [hne, nodeIds_setState]

theorem nodeIds_setCustomLabel (c : BComponent) (l : String) :
    nodeIds (setCustomLabel c l) = nodeIds c := rfl

theorem loadComponent_idFacts (k : Nat) (sc : SerComponent) :
    k < (loadComponent k sc).2 ∧ IdsIn ((loadComponent k sc).1) k ((loadComponent k sc).2) := by
  obtain ⟨hk1, hIn1⟩ := mkComponent_idFacts sc.stype k sc.x sc.y
  have hIn1' : IdsIn (setCustomLabel (mkComponent sc.stype k sc.x sc.y).1 sc.customLabel) k
      (mkComponent sc.stype k sc.x sc.y).2 := by
    constructor
    · intro x hx; exact hIn1.1 x (by rwa [nodeIds_setCustomLabel] at hx)
    · rw [nodeIds_setCustomLabel]; exact hIn1.2
  by_cases hne : sc.inputCount ≠ 0
  · obtain ⟨hid, hcnt⟩ := loadComponent_proj_pos k sc hne
    obtain ⟨h1, h2⟩ := setInputCountComp_idFacts
      (setCustomLabel (mkComponent sc.stype k sc.x sc.y).1 sc.customLabel)
      (mkComponent sc.stype k sc.x sc.y).2 sc.inputCount k hIn1' le_rfl (le_of_lt hk1)
    refine ⟨by omega, ?_, ?_⟩
    · intro x hx; rw [hcnt]; exact h2.1 x (by rwa [hid] at hx)
    · rw [hid]; exact h2.2
  · obtain ⟨hid, hcnt⟩ := loadComponent_proj_neg k sc hne
    refine ⟨by omega, ?_, ?_⟩
    · intro x hx; rw [hcnt]; exact hIn1'.1 x (by rwa [hid] at hx)
    · rw [hid]; exact hIn1'.2

theorem loadComponents_sep (scs : List SerComponent) : ∀ k : Nat,
    k ≤ (loadComponents k scs).2 ∧
    (∀ c ∈ (loadComponents k scs).1, ∀ x ∈ nodeIds c, k ≤ x ∧ x < (loadComponents k scs).2) ∧
    (∀ c ∈ (loadComponents k scs).1, (nodeIds c).Nodup) ∧
    List.Pairwise (fun c d => ∀ x ∈ nodeIds c, x ∉ nodeIds d) (loadComponents k scs).1 := by
  induction scs with
  | nil =>
    intro k
    exact ⟨le_rfl, by simp [loadComponents], by simp [loadComponents], by simp [loadComponents]⟩
  | cons sc rest ih =>
    intro k
    obtain ⟨hk1, hIn⟩ := loadComponent_idFacts k sc
    obtain ⟨hk2, hbnd, hnd, hpw⟩ := ih (loadComponent k sc).2
    simp only [loadComponents]
    refine ⟨by omega, ?_, ?_, ?_⟩
    · intro c hc x hx
      rcases List.mem_cons.mp hc with rfl | hc
      · have := hIn.1 x hx; omega
      · have := hbnd c hc x hx; omega
    · intro c hc
      rcases List.mem_cons.mp hc with rfl | hc
      · exact hIn.2
      · exact hnd c hc
    · rw [List.pairwise_cons]
      refine ⟨?_, hpw⟩
      intro d hd x hx hxd
      have h1 := hIn.1 x hx
      have h2 := hbnd d hd x hxd
      omega

theorem findNodeIdx_none_iff (nid : Nat) : ∀ ns : List BNode,
    findNodeIdx nid ns = none ↔ nid ∉ ns.map (fun n => n.id) := by
  intro ns
  induction ns with
  | nil => simp [findNodeIdx]
  | cons n rest ih =>
    by_cases h : n.id = nid
    · simp [findNodeIdx, h]
    · rw [findNodeIdx, if_neg h, Option.map_eq_none', ih]
      simp only [List.map_cons, List.mem_cons, not_or]
      constructor
      · intro hh; exact ⟨fun he => h he.symm, hh⟩
      · intro hh; exact hh.2

theorem findNodeIdx_sound (nid : Nat) : ∀ (ns : List BNode) (j : Nat),
    findNodeIdx nid ns = some j → ∃ nd, ns.get? j = some nd ∧ nd.id = nid := by
  intro ns
  induction ns with
  | nil => intro j h; exact absurd h (by simp [findNodeIdx])
  | cons n rest ih =>
    intro j h
    by_cases hn : n.id = nid
    · rw [findNodeIdx, if_pos hn] at h
      cases h
      exact ⟨n, rfl, hn⟩
    · rw [findNodeIdx, if_neg hn] at h
      rcases Option.map_eq_some'.mp h with ⟨j', hj', rfl⟩
      obtain ⟨nd, hnd, hid⟩ := ih j' hj'
      exact ⟨nd, by simpa using hnd, hid⟩

theorem findNodeIdx_complete : ∀ (ns : List BNode) (j : Nat) (nd : BNode),
    ns.get? j = some nd → (ns.map (fun n => n.id)).Nodup → findNodeIdx nd.id ns = some j := by
  intro ns
  induction ns with
  | nil => intro j nd h; exact absurd h (by simp)
  | cons n rest ih =>
    intro j nd h hnd
    rw [List.map_cons, List.nodup_cons] at hnd
    cases j with
    | zero =>
      cases (by simpa using h : n = nd)
      rw [findNodeIdx, if_pos rfl]
    | succ j' =>
      have hrest : rest.get? j' = some nd := by simpa using h
      have hmem : nd.id ∈ rest.map (fun n => n.id) :=
        List.mem_map.mpr ⟨nd, List.get?_mem hrest, rfl⟩
      have hne : n.id ≠ nd.id := fun hh => hnd.1 (hh ▸ hmem)
      rw [findNodeIdx, if_neg hne, ih j' nd hrest hnd.2]
      rfl

theorem locateNode_shift (f : BComponent → List BNode) : ∀ (comps : List BComponent)
    (nid i : Nat),
    locateNode f comps nid i = (locateNode f comps nid 0).map (fun p => (p.1 + i, p.2)) := by
  intro comps
  induction comps with
  | nil => intro nid i; rfl
  | cons c rest ih =>
    intro nid i
    rw [locateNode, locateNode]
    cases h : findNodeIdx nid (f c) with
    | some j => simp
    | none =>
      rw [ih nid (i + 1), ih nid 1]
      cases locateNode f rest nid 0 with
      | none => rfl
      | some p => simp; omega

theorem locateNode_sound (f : BComponent → List BNode) : ∀ (comps : List BComponent)
    (nid i j : Nat), locateNode f comps nid 0 = some (i, j) →
      ∃ c, comps.get? i = some c ∧ findNodeIdx nid (f c) = some j := by
  intro comps
  induction comps with
  | nil => intro nid i j h; exact absurd h (by rw [locateNode]; simp)
  | cons c rest ih =>
    intro nid i j h
    rw [locateNode] at h
    cases hf : findNodeIdx nid (f c) with
    | some j' =>
      rw [hf] at h
      cases h
      exact ⟨c, rfl, hf⟩
    | none =>
      rw [hf, locateNode_shift f rest nid 1] at h
      rcases Option.map_eq_some'.mp h with ⟨⟨i', j2⟩, hp, heq⟩
      cases heq
      obtain ⟨c', hc', hfc'⟩ := ih nid i' j2 hp
      exact ⟨c', by simpa using hc', hfc'⟩

theorem locateNode_complete (f : BComponent → List BNode)
    (hsub : ∀ c : BComponent, ∀ x ∈ (f c).map (fun n => n.id), x ∈ nodeIds c) :
    ∀ (comps : List BComponent),
    List.Pairwise (fun c d => ∀ x ∈ nodeIds c, x ∉ nodeIds d) comps →
    (∀ c ∈ comps, ((f c).map (fun n => n.id)).Nodup) →
    ∀ (i : Nat) (c : BComponent), comps.get? i = some c →
    ∀ (j : Nat) (nd : BNode), (f c).get? j = some nd →
    locateNode f comps nd.id 0 = some (i, j) := by
  intro comps
  induction comps with
  | nil => intro _ _ i c hc; exact absurd hc (by simp)
  | cons c0 rest ih =>
    intro hpw hnd i c hc j nd hj
    rw [List.pairwise_cons] at hpw
    cases i with
    | zero =>
      cases (by simpa using hc : c0 = c)
      rw [locateNode, findNodeIdx_complete (f c0) j nd hj (hnd c0 (List.mem_cons_self c0 rest))]
    | succ i2 =>
      have hc2 : rest.get? i2 = some c := by simpa using hc
      have hmemc : c ∈ rest := List.get?_mem hc2
      have hid : nd.id ∈ nodeIds c :=
        hsub c nd.id (List.mem_map.mpr ⟨nd, List.get?_mem hj, rfl⟩)
      have hnone : findNodeIdx nd.id (f c0) = none := by
        rw [findNodeIdx_none_iff]
        intro hmem
        exact (hpw.1 c hmemc nd.id (hsub c0 nd.id hmem)) hid
      rw [locateNode, hnone, locateNode_shift f rest nd.id 1,
        ih hpw.2 (fun d hd => hnd d (List.mem_cons_of_mem c0 hd)) i2 c hc2 j nd hj]
      rfl

-- ## Stage D: invariance under connection pushes

theorem map_id_push (ns : List BNode) (a w : Nat) :
    (ns.map (fun n => if n.id = a then { n with connections := n.connections ++ [w] } else n)).map
      (fun n => n.id) = ns.map (fun n => n.id) := by
  induction ns with
  | nil => rfl
  | cons n rest ih => by_cases h : n.id = a <;> simp [h, ih]

theorem pushConnection_inputIds (c : BComponent) (a w : Nat) :
    (pushConnection c a w).inputNodes.map (fun n => n.id) =
      c.inputNodes.map (fun n => n.id) := by
  simp only [pushConnection]
  exact map_id_push c.inputNodes a w

theorem pushConnection_outputIds (c : BComponent) (a w : Nat) :
    (pushConnection c a w).outputNodes.map (fun n => n.id) =
      c.outputNodes.map (fun n => n.id) := by
  simp only [pushConnection]
  exact map_id_push c.outputNodes a w

theorem serializeComponent_pushConnection (c : BComponent) (a w : Nat) :
    serializeComponent (pushConnection c a w) = serializeComponent c := by
  simp [serializeComponent, pushConnection]

theorem findNodeIdx_congr (nid : Nat) : ∀ (ns ns' : List BNode),
    ns.map (fun n => n.id) = ns'.map (fun n => n.id) →
    findNodeIdx nid ns = findNodeIdx nid ns' := by
  intro ns
  induction ns with
  | nil =>
    intro ns' h
    cases ns' with
    | nil => rfl
    | cons _ _ => simp at h
  | cons n rest ih =>
    intro ns' h
    cases ns' with
    | nil => simp at h
    | cons n' rest' =>
      simp only [List.map_cons, List.cons.injEq] at h
      rw [findNodeIdx, findNodeIdx, h.1, ih rest' h.2]

theorem locateNode_congr (f : BComponent → List BNode) : ∀ (comps comps' : List BComponent),
    comps.map (fun c => (f c).map (fun n => n.id)) =
      comps'.map (fun c => (f c).map (fun n => n.id)) →
    ∀ nid i, locateNode f comps nid i = locateNode f comps' nid i := by
  intro comps
  induction comps with
  | nil =>
    intro comps' h nid i
    cases comps' with
    | nil => rfl
    | cons _ _ => simp at h
  | cons c rest ih =>
    intro comps' h nid i
    cases comps' with
    | nil => simp at h
    | cons c' rest' =>
      simp only [List.map_cons, List.cons.injEq] at h
      rw [locateNode, locateNode, findNodeIdx_congr nid (f c) (f c') h.1]
      cases findNodeIdx nid (f c') with
      | some j => rfl
      | none => exact ih rest' h.2 nid (i + 1)

theorem serializeWire_congr (comps comps' : List BComponent)
    (hin : comps.map (fun c => c.inputNodes.map (fun n => n.id)) =
      comps'.map (fun c => c.inputNodes.map (fun n => n.id)))
    (hout : comps.map (fun c => c.outputNodes.map (fun n => n.id)) =
      comps'.map (fun c => c.outputNodes.map (fun n => n.id)))
    (w : BWire) : serializeWire comps w = serializeWire comps' w := by
  rw [serializeWire, serializeWire, locateOutputNode, locateOutputNode,
    locateInputNode, locateInputNode,
    locateNode_congr (fun c => c.outputNodes) comps comps' hout w.startNode 0,
    locateNode_congr (fun c => c.inputNodes) comps comps' hin w.endNode 0]

theorem addWire_preserves (m : Model) (w : BWire) :
    ((addWire m w).allComponents.map (fun c => c.inputNodes.map (fun n => n.id)) =
      m.allComponents.map (fun c => c.inputNodes.map (fun n => n.id))) ∧
    ((addWire m w).allComponents.map (fun c => c.outputNodes.map (fun n => n.id)) =
      m.allComponents.map (fun c => c.outputNodes.map (fun n => n.id))) ∧
    ((addWire m w).allComponents.map serializeComponent =
      m.allComponents.map serializeComponent) := by
  simp only [addWire, List.map_map]
  refine ⟨?_, ?_, ?_⟩ <;>
    · apply List.map_congr_left
      intro c _
      simp [Function.comp, pushConnection_inputIds, pushConnection_outputIds,
        serializeComponent_pushConnection]

theorem loadWires_preserves : ∀ (sws : List SerWire) (loaded : List BComponent) (m : Model),
    ((loadWires loaded m sws).allComponents.map (fun c => c.inputNodes.map (fun n => n.id)) =
      m.allComponents.map (fun c => c.inputNodes.map (fun n => n.id))) ∧
    ((loadWires loaded m sws).allComponents.map (fun c => c.outputNodes.map (fun n => n.id)) =
      m.allComponents.map (fun c => c.outputNodes.map (fun n => n.id))) ∧
    ((loadWires loaded m sws).allComponents.map serializeComponent =
      m.allComponents.map serializeComponent) := by
  intro sws
  induction sws with
  | nil => intro loaded m; exact ⟨rfl, rfl, rfl⟩
  | cons sw rest ih =>
    intro loaded m
    rw [loadWires]
    split
    · split
      · rename_i fn tn _ _
        obtain ⟨p1, p2, p3⟩ := addWire_preserves
          { m with counter := (mkWire m.counter fn.id tn.id).2 }
          (mkWire m.counter fn.id tn.id).1
        obtain ⟨q1, q2, q3⟩ := ih loaded
          (addWire { m with counter := (mkWire m.counter fn.id tn.id).2 }
            (mkWire m.counter fn.id tn.id).1)
        exact ⟨q1.trans p1, q2.trans p2, q3.trans p3⟩
      · exact ih loaded m
    · exact ih loaded m

theorem loadComponents_get (scs : List SerComponent) : ∀ (k i : Nat) (sc : SerComponent),
    scs.get? i = some sc →
    ∃ k', ((loadComponents k scs).1).get? i = some ((loadComponent k' sc).1) := by
  induction scs with
  | nil => intro k i sc h; exact absurd h (by simp)
  | cons sc0 rest ih =>
    intro k i sc h
    cases i with
    | zero =>
      cases (by simpa using h : sc0 = sc)
      exact ⟨k, by simp [loadComponents]⟩
    | succ i2 =>
      obtain ⟨k', hk⟩ := ih (loadComponent k sc0).2 i2 sc (by simpa using h)
      exact ⟨k', by simpa [loadComponents] using hk⟩

theorem loadWires_filterMap (loaded : List BComponent)
    (hpw : List.Pairwise (fun c d => ∀ x ∈ nodeIds c, x ∉ nodeIds d) loaded)
    (hnd : ∀ c ∈ loaded, (nodeIds c).Nodup) :
    ∀ (sws : List SerWire) (macc : Model),
    (∀ sw ∈ sws, ∃ fc tc fn tn,
      loaded[sw.fromComponentIndex]? = some fc ∧
      loaded[sw.toComponentIndex]? = some tc ∧
      fc.outputNodes[sw.fromNodeIndex]? = some fn ∧
      tc.inputNodes[sw.toNodeIndex]? = some tn) →
    (loadWires loaded macc sws).allWires.filterMap (serializeWire loaded) =
      macc.allWires.filterMap (serializeWire loaded) ++ sws := by
  have hndout : ∀ c ∈ loaded, (c.outputNodes.map (fun n => n.id)).Nodup := by
    intro c hc
    have h := hnd c hc
    rw [nodeIds, List.nodup_append] at h
    exact h.2.1
  have hndin : ∀ c ∈ loaded, (c.inputNodes.map (fun n => n.id)).Nodup := by
    intro c hc
    have h := hnd c hc
    rw [nodeIds, List.nodup_append] at h
    exact h.1
  intro sws
  induction sws with
  | nil => intro macc _; simp [loadWires]
  | cons sw rest ih =>
    intro macc hres
    obtain ⟨fc, tc, fn, tn, h1, h2, h3, h4⟩ := hres sw (List.mem_cons_self sw rest)
    have hser : serializeWire loaded ⟨macc.counter, fn.id, tn.id, 0⟩ = some sw := by
      rw [serializeWire, locateOutputNode, locateInputNode]
      rw [locateNode_complete (fun c => c.outputNodes)
          (fun c x hx => by simp only [nodeIds, inputIds, outputIds, List.mem_append]
                            right
                            exact hx)
          loaded hpw hndout sw.fromComponentIndex fc (by rw [List.get?_eq_getElem?]; exact h1)
          sw.fromNodeIndex fn (by rw [List.get?_eq_getElem?]; exact h3),
        locateNode_complete (fun c => c.inputNodes)
          (fun c x hx => by simp only [nodeIds, inputIds, outputIds, List.mem_append]
                            left
                            exact hx)
          loaded hpw hndin sw.toComponentIndex tc (by rw [List.get?_eq_getElem?]; exact h2)
          sw.toNodeIndex tn (by rw [List.get?_eq_getElem?]; exact h4)]
    rw [loadWires, h1, h2]
    simp only []
    rw [h3, h4]
    simp only []
    rw [ih (addWire { macc with counter := (mkWire macc.counter fn.id tn.id).2 }
          (mkWire macc.counter fn.id tn.id).1)
        (fun sw2 hsw2 => hres sw2 (List.mem_cons_of_mem sw hsw2))]
    rw [addWire]
    simp only [mkWire]
    rw [List.filterMap_append]
    simp [hser]

theorem wf_outputNodes_length (c : BComponent) (hwfc : wfComponent c = true) :
    c.outputNodes.length = (if c.kind = GateKind.OUTPUT then 0 else 1) := by
  simp only [wfComponent, Bool.and_eq_true, beq_iff_eq, decide_eq_true_eq] at hwfc
  obtain ⟨hsh, _⟩ := hwfc
  cases hk : c.kind <;> rw [hk] at hsh <;>
    simp only [Bool.and_eq_true, beq_iff_eq, decide_eq_true_eq] at hsh <;>
      first
      | (rw [if_pos rfl]; omega)
      | (rw [if_neg (by decide)]; omega)

theorem locate_to_loaded_out (comps : List BComponent)
    (hall : ∀ c ∈ comps, wfComponent c = true) (k : Nat) (nid p1 p2 : Nat)
    (hloc : locateOutputNode comps nid = some (p1, p2)) :
    ∃ fc fn, ((loadComponents k (comps.map serializeComponent)).1)[p1]? = some fc ∧
      fc.outputNodes[p2]? = some fn := by
  obtain ⟨c, hc, hf⟩ := locateNode_sound (fun c => c.outputNodes) comps nid p1 p2 hloc
  obtain ⟨nd, hnd, hid⟩ := findNodeIdx_sound nid c.outputNodes p2 hf
  have hlen : p2 < c.outputNodes.length := by
    by_contra hcon
    rw [List.get?_eq_getElem?, List.getElem?_eq_none (by omega)] at hnd
    exact Option.noConfusion hnd
  have hwfc := hall c (List.get?_mem hc)
  have hsc : (comps.map serializeComponent).get? p1 = some (serializeComponent c) := by
    rw [List.get?_map, hc]; rfl
  obtain ⟨k', hload⟩ := loadComponents_get (comps.map serializeComponent) k p1 _ hsc
  have hshape := loadComponent_shape k' (serializeComponent c)
  have hlen2 : p2 < ((loadComponent k' (serializeComponent c)).1).outputNodes.length := by
    rw [hshape.2]
    have horig := wf_outputNodes_length c hwfc
    have hty : (serializeComponent c).stype = c.kind := rfl
    rw [hty, ← horig]
    exact hlen
  refine ⟨(loadComponent k' (serializeComponent c)).1,
    ((loadComponent k' (serializeComponent c)).1).outputNodes.get ⟨p2, hlen2⟩, ?_, ?_⟩
  · rw [← List.get?_eq_getElem?]; exact hload
  · rw [List.getElem?_eq_getElem hlen2]; rfl

theorem locate_to_loaded_in (comps : List BComponent)
    (hall : ∀ c ∈ comps, wfComponent c = true) (k : Nat) (nid p1 p2 : Nat)
    (hloc : locateInputNode comps nid = some (p1, p2)) :
    ∃ tc tn, ((loadComponents k (comps.map serializeComponent)).1)[p1]? = some tc ∧
      tc.inputNodes[p2]? = some tn := by
  obtain ⟨c, hc, hf⟩ := locateNode_sound (fun c => c.inputNodes) comps nid p1 p2 hloc
  obtain ⟨nd, hnd, hid⟩ := findNodeIdx_sound nid c.inputNodes p2 hf
  have hlen : p2 < c.inputNodes.length := by
    by_contra hcon
    rw [List.get?_eq_getElem?, List.getElem?_eq_none (by omega)] at hnd
    exact Option.noConfusion hnd
  have hwfc := hall c (List.get?_mem hc)
  have hsc : (comps.map serializeComponent).get? p1 = some (serializeComponent c) := by
    rw [List.get?_map, hc]; rfl
  obtain ⟨k', hload⟩ := loadComponents_get (comps.map serializeComponent) k p1 _ hsc
  have hrt := loadComponent_roundtrip c k' hwfc
  have hlen2 : p2 < ((loadComponent k' (serializeComponent c)).1).inputNodes.length := by
    have : ((loadComponent k' (serializeComponent c)).1).inputNodes.length =
        c.inputNodes.length := congrArg SerComponent.inputCount hrt
    omega
  refine ⟨(loadComponent k' (serializeComponent c)).1,
    ((loadComponent k' (serializeComponent c)).1).inputNodes.get ⟨p2, hlen2⟩, ?_, ?_⟩
  · rw [← List.get?_eq_getElem?]; exact hload
  · rw [List.getElem?_eq_getElem hlen2]; rfl

theorem loadCircuitData_eq (m0 : Model) (d : CircuitData) :
    loadCircuitData m0 d =
      loadWires (loadComponents m0.counter d.components).1
        ⟨(loadComponents m0.counter d.components).2,
         (loadComponents m0.counter d.components).1, []⟩ d.wires := rfl

/-- C8: for every well-formed circuit, deserializing its serialization
reproduces the serialized observation exactly — identical component
kinds, positions, custom labels, input counts (arities), source states,
and the same component index and port index on each end of every wire. -/
theorem serialize_roundtrip (m m0 : Model) (h : wfModel m = true) :
    getCircuitData (loadCircuitData m0 (getCircuitData m)) = getCircuitData m := by
  simp only [wfModel, Bool.and_eq_true, List.all_eq_true, decide_eq_true_eq] at h
  obtain ⟨⟨hall, hnodup⟩, hwiresOk⟩ := h
  have hallb : m.allComponents.all wfComponent = true := List.all_eq_true.mpr hall
  obtain ⟨hsepk, hbnd, hnd, hpw⟩ :=
    loadComponents_sep (m.allComponents.map serializeComponent) m0.counter
  rw [loadCircuitData_eq]
  simp only [getCircuitData]
  rw [CircuitData.mk.injEq]
  have hres : ∀ sw ∈ m.allWires.filterMap (serializeWire m.allComponents),
      ∃ fc tc fn tn,
        ((loadComponents m0.counter (m.allComponents.map serializeComponent)).1)[sw.fromComponentIndex]? = some fc ∧
        ((loadComponents m0.counter (m.allComponents.map serializeComponent)).1)[sw.toComponentIndex]? = some tc ∧
        fc.outputNodes[sw.fromNodeIndex]? = some fn ∧
        tc.inputNodes[sw.toNodeIndex]? = some tn := by
    intro sw hsw
    rw [List.mem_filterMap] at hsw
    obtain ⟨w, hw, hser⟩ := hsw
    rw [serializeWire] at hser
    cases hlo : locateOutputNode m.allComponents w.startNode with
    | none =>
      rw [hlo] at hser
      cases hli : locateInputNode m.allComponents w.endNode <;> rw [hli] at hser <;>
        exact absurd hser (by simp)
    | some p =>
      cases hli : locateInputNode m.allComponents w.endNode with
      | none =>
        rw [hlo, hli] at hser
        exact absurd hser (by simp)
      | some q =>
        rw [hlo, hli] at hser
        simp only [Option.some.injEq] at hser
        subst hser
        obtain ⟨fc, fn, hfc, hfn⟩ :=
          locate_to_loaded_out m.allComponents hall m0.counter w.startNode p.1 p.2 hlo
        obtain ⟨tc, tn, htc, htn⟩ :=
          locate_to_loaded_in m.allComponents hall m0.counter w.endNode q.1 q.2 hli
        exact ⟨fc, tc, fn, tn, hfc, htc, hfn, htn⟩
  refine ⟨?_, ?_⟩
  · rw [(loadWires_preserves (m.allWires.filterMap (serializeWire m.allComponents))
        (loadComponents m0.counter (m.allComponents.map serializeComponent)).1
        ⟨(loadComponents m0.counter (m.allComponents.map serializeComponent)).2,
         (loadComponents m0.counter (m.allComponents.map serializeComponent)).1, []⟩).2.2]
    exact loadComponents_roundtrip m.allComponents m0.counter hallb
  · have hpres := loadWires_preserves (m.allWires.filterMap (serializeWire m.allComponents))
        (loadComponents m0.counter (m.allComponents.map serializeComponent)).1
        ⟨(loadComponents m0.counter (m.allComponents.map serializeComponent)).2,
         (loadComponents m0.counter (m.allComponents.map serializeComponent)).1, []⟩
    have hfun : serializeWire ((loadWires
        (loadComponents m0.counter (m.allComponents.map serializeComponent)).1
        ⟨(loadComponents m0.counter (m.allComponents.map serializeComponent)).2,
         (loadComponents m0.counter (m.allComponents.map serializeComponent)).1, []⟩
        (m.allWires.filterMap (serializeWire m.allComponents))).allComponents) =
        serializeWire (loadComponents m0.counter (m.allComponents.map serializeComponent)).1 :=
      funext (fun w => serializeWire_congr _ _ hpres.1 hpres.2.1 w)
    rw [hfun]
    rw [loadWires_filterMap (loadComponents m0.counter (m.allComponents.map serializeComponent)).1
        hpw hnd (m.allWires.filterMap (serializeWire m.allComponents))
        ⟨(loadComponents m0.counter (m.allComponents.map serializeComponent)).2,
         (loadComponents m0.counter (m.allComponents.map serializeComponent)).1, []⟩ hres]
    rfl

/-- Witness for C8: the spec's scenario — an AND gate at arity 2 fed by
two toggles and feeding an LED — saved and reloaded. -/
theorem serialize_roundtrip_witness :
    wfModel c8M = true ∧
    getCircuitData (loadCircuitData emptyModel (getCircuitData c8M)) = getCircuitData c8M :=
  ⟨by decide, serialize_roundtrip c8M emptyModel (by decide)⟩
